import Mathlib

/-!
# Deprecated-API audit plugin: embedding of `main.go`

A shallow embedding of the registry built in `main`, of `getNewestAPIVersion`
and of the six enumeration passes of `main`, followed by the properties of the
specification that concern them.

Conventions of the embedding:

* a Go `map[string]T` is an association list read with the zero value as the
  default, which is what indexing an absent key gives in Go;
* `json.Unmarshal` and the six `List` calls belong to libraries outside the
  repository; the decoder is a parameter of the passes and the outcome of each
  `List` call is an input of `main`;
* `log.Println` appends a line to an explicit log.
-/

namespace DeprecationPlugin

/-! ## Data model (main.go, lines 16-32) -/

/-- The struct `appliedConfig` (lines 16-18). -/
structure appliedConfig where
  APIVersion : String
  deriving DecidableEq, Repr

/-- The struct `apiChanges` (lines 20-23). -/
structure apiChanges where
  Deprecated : List String
  New : String
  deriving DecidableEq, Repr

/-- The struct `result` (lines 25-30). -/
structure result where
  Namespace : String
  Name : String
  DeprecatedAPI : String
  NewAPI : String
  deriving DecidableEq, Repr

/-- The constant `LastAppliedConfiguration` (line 32). -/
def LastAppliedConfiguration : String :=
  "kubectl.kubernetes.io/last-applied-configuration"

/-- Zero value of `apiChanges`: a nil slice and the empty string. -/
def apiChanges.zero : apiChanges := ⟨[], ""⟩

/-- A Go `map[string]apiChanges`. -/
abbrev Registry := List (String × apiChanges)

/-- The keys of a registry map. -/
def Registry.keys (deps : Registry) : List String := deps.map Prod.fst

/-- Go map indexing `deps[name]`: the stored value, or the zero value when the
key is absent. -/
def Registry.index (deps : Registry) (name : String) : apiChanges :=
  (deps.lookup name).getD apiChanges.zero

/-- A Go `map[string]string`, as carried by an object's metadata. -/
abbrev Annotations := List (String × String)

/-- Go map indexing `a.Annotations[key]`: the empty string when absent. -/
def Annotations.index (m : Annotations) (key : String) : String :=
  (m.lookup key).getD ""

/-- The part of an enumerated cluster object that `main` reads. -/
structure Object where
  Namespace : String
  Name : String
  Annotations : Annotations
  deriving DecidableEq, Repr

/-! ## The registry built in `main` (lines 35-60) -/

/-- The map literal `deprecatedAPIs`. -/
def deprecatedAPIs : Registry :=
  [ ("networkPolicy", ⟨["extensions/v1beta1"], "networking.k8s.io/v1"⟩),
    ("podSecurityPolicy", ⟨["extensions/v1beta1"], "policy/v1beta1"⟩),
    ("daemonSet", ⟨["extensions/v1beta1", "apps/v1beta1", "apps/v1beta2"], "apps/v1"⟩),
    ("deployment", ⟨["extensions/v1beta1", "apps/v1beta1", "apps/v1beta2"], "apps/v1"⟩),
    ("statefulSet", ⟨["extensions/v1beta1", "apps/v1beta1", "apps/v1beta2"], "apps/v1"⟩),
    ("replicaSet", ⟨["extensions/v1beta1", "apps/v1beta1", "apps/v1beta2"], "apps/v1"⟩) ]

/-! ## `getNewestAPIVersion` (lines 186-193) -/

/-- The `for _, a := range ...` loop of `getNewestAPIVersion`, over the
remaining elements of the slice; `new` is the value of `deps[name].New`. -/
def getNewestAPIVersion.loop (apiVersion new : String) : List String → String
  | [] => ""
  | a :: rest => if apiVersion = a then new else getNewestAPIVersion.loop apiVersion new rest

/-- The function `getNewestAPIVersion`. -/
def getNewestAPIVersion (name apiVersion : String) (deps : Registry) : String :=
  getNewestAPIVersion.loop apiVersion (deps.index name).New (deps.index name).Deprecated

/-! ## The passes of `main` (lines 73-169) -/

/-- The tail of every loop body (lines 84-87, 100-103, 116-119, ...): the call
of `getNewestAPIVersion` and the construction of the record that is appended
when the returned string is not empty. -/
def evaluate (kind ns name declaredVersion : String) (deps : Registry) : Option result :=
  let newestAPIVersion := getNewestAPIVersion kind declaredVersion deps
  if newestAPIVersion ≠ "" then
    some ⟨ns, name, declaredVersion, newestAPIVersion⟩
  else
    none

/-- Outcome of `json.Unmarshal(d, &ac)` on a zero-valued `ac`: the content of
`ac` after the call and the returned error (`none` for `nil`). -/
abbrev Unmarshal := String → appliedConfig × Option String

/-- What a run of `main` produces: the slice `results` and the lines written
with `log.Println`. -/
structure State where
  results : List result
  log : List String
  deriving DecidableEq, Repr

/-- One iteration of a pass (for instance lines 109-120); `key` is the string
literal that the pass hands to `getNewestAPIVersion`. -/
def passBody (unmarshal : Unmarshal) (deps : Registry) (key : String)
    (st : State) (a : Object) : State :=
  if a.Annotations.index LastAppliedConfiguration ≠ "" then
    let d := a.Annotations.index LastAppliedConfiguration
    let ac := (unmarshal d).1
    let err := (unmarshal d).2
    let st1 : State :=
      match err with
      | some e => { st with log := st.log ++ [e] }
      | none => st
    match evaluate key a.Namespace a.Name ac.APIVersion deps with
    | some r => { st1 with results := st1.results ++ [r] }
    | none => st1
  else
    st

/-- One `for _, a := range xs.Items` loop. -/
def pass (unmarshal : Unmarshal) (deps : Registry) (key : String)
    (items : List Object) (st : State) : State :=
  items.foldl (passBody unmarshal deps key) st

/-- What a `List` call returns: the items of the returned list value and the
error (`none` for `nil`). The generated typed clients allocate the list value
before the request, so it is there to be ranged over also when the error is
not nil. -/
structure ListOutcome where
  Items : List Object
  err : Option String
  deriving DecidableEq, Repr

/-- The body of `main` from line 73 to line 169, as a function of the outcomes
of the six `List` calls; the `err` of a `List` call is assigned and never
read. The keys are the string literals of lines 84, 100, 116, 132, 148, 164. -/
def main (unmarshal : Unmarshal) (nwpl psp dp ds ss rs : ListOutcome) : State :=
  let st0 : State := ⟨[], []⟩
  let st1 := pass unmarshal deprecatedAPIs "networkpolicy" nwpl.Items st0
  let st2 := pass unmarshal deprecatedAPIs "podSecurityPolicy" psp.Items st1
  let st3 := pass unmarshal deprecatedAPIs "deployment" dp.Items st2
  let st4 := pass unmarshal deprecatedAPIs "daemonSet" ds.Items st3
  let st5 := pass unmarshal deprecatedAPIs "statefulSet" ss.Items st4
  pass unmarshal deprecatedAPIs "replicaSet" rs.Items st5

/-! ## Vocabulary for the properties of the passes -/

/-- Whether the object carries a non-empty last-applied-configuration
annotation (the test of lines 77, 93, 109, 125, 141, 157). -/
def hasAppliedConfig (a : Object) : Bool :=
  decide (a.Annotations.index LastAppliedConfiguration ≠ "")

/-- The record, if any, that one object adds to `results` in a pass that uses
`key`: the evaluation of the version left by the decoder, for an object with a
non-empty annotation. -/
def contribution (unmarshal : Unmarshal) (deps : Registry) (key : String)
    (a : Object) : Option result :=
  if a.Annotations.index LastAppliedConfiguration ≠ "" then
    evaluate key a.Namespace a.Name
      (unmarshal (a.Annotations.index LastAppliedConfiguration)).1.APIVersion deps
  else
    none

/-- The objects in the order in which `main` visits them, each with the key of
its pass. -/
def enumeration (nwpl psp dp ds ss rs : ListOutcome) : List (String × Object) :=
  nwpl.Items.map (fun a => ("networkpolicy", a)) ++
  psp.Items.map (fun a => ("podSecurityPolicy", a)) ++
  dp.Items.map (fun a => ("deployment", a)) ++
  ds.Items.map (fun a => ("daemonSet", a)) ++
  ss.Items.map (fun a => ("statefulSet", a)) ++
  rs.Items.map (fun a => ("replicaSet", a))

/-- An object whose only annotation is the given last-applied configuration. -/
def appliedObject (ns name config : String) : Object :=
  ⟨ns, name, [(LastAppliedConfiguration, config)]⟩

/-- The outcome of a `List` call that finds nothing and reports no error. -/
def ListOutcome.empty : ListOutcome := ⟨[], none⟩

/-- The document
`\x7b"apiVersion":"extensions/v1beta1"\x7d`. -/
def extensionsConfig : String := "\x7b\"apiVersion\":\"extensions/v1beta1\"\x7d"

/-- The document
`\x7b"apiVersion":"apps/v1beta1","apiVersion":1\x7d`, whose second
`apiVersion` member is a number. -/
def duplicateKeyConfig : String :=
  "\x7b\"apiVersion\":\"apps/v1beta1\",\"apiVersion\":1\x7d"

/-- The error that `json.Unmarshal` reports for `duplicateKeyConfig`. -/
def duplicateKeyError : String :=
  "json: cannot unmarshal number into Go struct field appliedConfig.apiVersion of type string"

/-- The outcomes of `json.Unmarshal` on the two documents above, and on
anything else an empty `ac` without error. On `duplicateKeyConfig` the decoder
of `encoding/json` stores the first member in the field, records a type error
for the second one, goes on, and returns the recorded error at the end. -/
def sampleUnmarshal : Unmarshal := fun d =>
  if d = extensionsConfig then (⟨"extensions/v1beta1"⟩, none)
  else if d = duplicateKeyConfig then
    (⟨"apps/v1beta1"⟩, some duplicateKeyError)
  else (⟨""⟩, none)

/-! ## Helper lemmas -/

theorem loop_eq (apiVersion new : String) (l : List String) :
    getNewestAPIVersion.loop apiVersion new l = if apiVersion ∈ l then new else "" := by
  induction l with
  | nil => simp [getNewestAPIVersion.loop]
  | cons a rest ih =>
    by_cases h : apiVersion = a
    · simp [getNewestAPIVersion.loop, h]
    · simp [getNewestAPIVersion.loop, h, ih]

theorem getNewestAPIVersion_eq (name apiVersion : String) (deps : Registry) :
    getNewestAPIVersion name apiVersion deps =
      if apiVersion ∈ (deps.index name).Deprecated then (deps.index name).New else "" := by
  unfold getNewestAPIVersion
  exact loop_eq _ _ _

theorem index_of_not_key (deps : Registry) (name : String) (h : name ∉ deps.keys) :
    deps.index name = apiChanges.zero := by
  unfold Registry.index
  have : deps.lookup name = none := by
    rw [List.lookup_eq_none_iff]
    intro p hp
    have hne : name ≠ p.1 := by
      intro heq
      exact h (heq ▸ List.mem_map_of_mem Prod.fst hp)
    simpa using hne
  simp [this]

theorem mem_keys_cases (K : String) (hK : K ∈ deprecatedAPIs.keys) :
    K = "networkPolicy" ∨ K = "podSecurityPolicy" ∨ K = "daemonSet" ∨
      K = "deployment" ∨ K = "statefulSet" ∨ K = "replicaSet" := by
  simpa [Registry.keys, deprecatedAPIs] using hK

theorem evaluate_eq_none_iff (kind ns name v : String) (deps : Registry) :
    evaluate kind ns name v deps = none ↔ getNewestAPIVersion kind v deps = "" := by
  unfold evaluate
  by_cases h : getNewestAPIVersion kind v deps = "" <;> simp [h]

theorem empty_not_deprecated (K : String) : "" ∉ (deprecatedAPIs.index K).Deprecated := by
  by_cases hK : K ∈ deprecatedAPIs.keys
  · rcases mem_keys_cases K hK with h | h | h | h | h | h <;> subst h <;> decide
  · rw [index_of_not_key _ _ hK]
    simp [apiChanges.zero]

theorem passBody_results (unmarshal : Unmarshal) (deps : Registry) (key : String)
    (st : State) (a : Object) :
    (passBody unmarshal deps key st a).results
      = st.results ++ (contribution unmarshal deps key a).toList := by
  unfold passBody contribution
  by_cases h : a.Annotations.index LastAppliedConfiguration = ""
  · simp [h]
  · simp only [ne_eq, h, not_false_eq_true, if_true]
    cases hev : evaluate key a.Namespace a.Name
        (unmarshal (a.Annotations.index LastAppliedConfiguration)).1.APIVersion deps <;>
      cases (unmarshal (a.Annotations.index LastAppliedConfiguration)).2 <;> simp

theorem pass_results (unmarshal : Unmarshal) (deps : Registry) (key : String)
    (items : List Object) (st : State) :
    (pass unmarshal deps key items st).results
      = st.results ++ items.filterMap (contribution unmarshal deps key) := by
  unfold pass
  induction items generalizing st with
  | nil => simp
  | cons a rest ih =>
    rw [List.foldl_cons, ih, passBody_results]
    cases hc : contribution unmarshal deps key a <;> simp [List.filterMap_cons, hc]

theorem filterMap_tagged (unmarshal : Unmarshal) (deps : Registry) (key : String)
    (items : List Object) :
    (items.map (fun a => (key, a))).filterMap (fun p => contribution unmarshal deps p.1 p.2)
      = items.filterMap (contribution unmarshal deps key) := by
  induction items with
  | nil => rfl
  | cons a rest ih => simp [List.filterMap_cons, ih]

theorem main_results (unmarshal : Unmarshal) (nwpl psp dp ds ss rs : ListOutcome) :
    (main unmarshal nwpl psp dp ds ss rs).results
      = (enumeration nwpl psp dp ds ss rs).filterMap
          (fun p => contribution unmarshal deprecatedAPIs p.1 p.2) := by
  simp only [main, enumeration, pass_results, List.filterMap_append, filterMap_tagged,
    List.nil_append, List.append_assoc]

theorem contribution_none_of_not_hasAppliedConfig (unmarshal : Unmarshal) (deps : Registry)
    (key : String) (a : Object) (h : hasAppliedConfig a = false) :
    contribution unmarshal deps key a = none := by
  unfold hasAppliedConfig at h
  unfold contribution
  simp only [decide_eq_false_iff_not] at h
  simp [h]

theorem filterMap_length_le_countP {α β : Type} (f : α → Option β) (q : α → Bool)
    (hf : ∀ x, q x = false → f x = none) (l : List α) :
    (l.filterMap f).length ≤ l.countP q := by
  induction l with
  | nil => simp
  | cons x rest ih =>
    cases hq : q x
    · simp [List.filterMap_cons, hf x hq, List.countP_cons, hq, ih]
    · rw [List.countP_cons_of_pos _ _ hq]
      cases hfx : f x
      · simp only [List.filterMap_cons, hfx]
        omega
      · simp only [List.filterMap_cons, hfx, List.length_cons]
        omega

/-! ## Properties of the evaluator -/

/-- C1: for every key K of the registry built in main, every namespace and
name, and every declared version v in the Deprecated list of K, the evaluation
yields a record with the given namespace and name, v as DeprecatedAPI and the
New of K as NewAPI. -/
theorem C1_deprecated_version_yields_finding (K ns name v : String)
    (hK : K ∈ deprecatedAPIs.keys) (hv : v ∈ (deprecatedAPIs.index K).Deprecated) :
    evaluate K ns name v deprecatedAPIs
      = some ⟨ns, name, v, (deprecatedAPIs.index K).New⟩ := by
  have hnew : (deprecatedAPIs.index K).New ≠ "" := by
    rcases mem_keys_cases K hK with h | h | h | h | h | h <;> subst h <;> decide
  unfold evaluate
  simp [getNewestAPIVersion_eq, hv, hnew]

/-- C1, at the scenario of the specification: kind deployment declared with
extensions/v1beta1 is reported with NewAPI apps/v1. -/
theorem C1_witness_deployment :
    evaluate "deployment" "default" "web" "extensions/v1beta1" deprecatedAPIs
      = some ⟨"default", "web", "extensions/v1beta1", "apps/v1"⟩ :=
  C1_deprecated_version_yields_finding "deployment" "default" "web" "extensions/v1beta1"
    (by decide) (by decide)

/-- C2: a finding is created only on an exact match. The evaluation yields a
record exactly when getNewestAPIVersion returns a non-empty string; when it
does, K is a key of the registry built in main and v is equal, as a string, to
an element of the Deprecated list of K. No normalisation: for kind deployment
the strings Apps/v1beta1, apps/v1beta1 followed by a blank, and apps/v1beta3
yield no finding. -/
theorem C2_finding_only_on_exact_match (K ns name v : String) :
    ((evaluate K ns name v deprecatedAPIs).isSome = true
        ↔ getNewestAPIVersion K v deprecatedAPIs ≠ "") ∧
    (getNewestAPIVersion K v deprecatedAPIs ≠ "" →
        K ∈ deprecatedAPIs.keys ∧ v ∈ (deprecatedAPIs.index K).Deprecated) ∧
    (∀ w, w ∈ ["Apps/v1beta1", "apps/v1beta1 ", "apps/v1beta3"] →
        getNewestAPIVersion "deployment" w deprecatedAPIs = "" ∧
        evaluate "deployment" ns name w deprecatedAPIs = none) := by
  refine ⟨?_, ?_, ?_⟩
  · rw [Ne, ← evaluate_eq_none_iff K ns name v deprecatedAPIs]
    cases evaluate K ns name v deprecatedAPIs <;> simp
  · intro h
    rw [getNewestAPIVersion_eq] at h
    by_cases hv : v ∈ (deprecatedAPIs.index K).Deprecated
    · refine ⟨?_, hv⟩
      by_contra hK
      rw [index_of_not_key _ _ hK] at hv
      simp [apiChanges.zero] at hv
    · simp [hv] at h
  · intro w hw
    have hnone : getNewestAPIVersion "deployment" w deprecatedAPIs = "" := by
      simp only [List.mem_cons, List.mem_singleton, List.not_mem_nil, or_false] at hw
      rcases hw with h | h | h <;> subst h <;> decide
    exact ⟨hnone, (evaluate_eq_none_iff _ _ _ _ _).2 hnone⟩

/-- C2, applied to kind deployment declared with apps/v1beta2: the non-empty
return value comes with a key of the registry and a member of its list. -/
theorem C2_witness_deployment :
    getNewestAPIVersion "deployment" "apps/v1beta2" deprecatedAPIs ≠ "" ∧
      ("deployment" ∈ deprecatedAPIs.keys ∧
        "apps/v1beta2" ∈ (deprecatedAPIs.index "deployment").Deprecated) :=
  ⟨by decide,
    (C2_finding_only_on_exact_match "deployment" "default" "web" "apps/v1beta2").2.1
      (by decide)⟩

/-- C3: for every key K of the registry built in main, the New of K is not an
element of the Deprecated list of K, so that evaluating K with its own New as
declared version returns the empty string and yields no finding. -/
theorem C3_replacement_is_not_deprecated (K ns name : String)
    (hK : K ∈ deprecatedAPIs.keys) :
    (deprecatedAPIs.index K).New ∉ (deprecatedAPIs.index K).Deprecated ∧
    getNewestAPIVersion K (deprecatedAPIs.index K).New deprecatedAPIs = "" ∧
    evaluate K ns name (deprecatedAPIs.index K).New deprecatedAPIs = none := by
  have hmem : (deprecatedAPIs.index K).New ∉ (deprecatedAPIs.index K).Deprecated := by
    rcases mem_keys_cases K hK with h | h | h | h | h | h <;> subst h <;> decide
  have hnone : getNewestAPIVersion K (deprecatedAPIs.index K).New deprecatedAPIs = "" := by
    rw [getNewestAPIVersion_eq]
    simp [hmem]
  exact ⟨hmem, hnone, (evaluate_eq_none_iff _ _ _ _ _).2 hnone⟩

/-- C3, at the scenario of the specification: kind networkPolicy declared with
networking.k8s.io/v1 yields no finding. -/
theorem C3_witness_networkPolicy :
    "networking.k8s.io/v1" ∉ (deprecatedAPIs.index "networkPolicy").Deprecated ∧
    getNewestAPIVersion "networkPolicy" "networking.k8s.io/v1" deprecatedAPIs = "" ∧
    evaluate "networkPolicy" "default" "np" "networking.k8s.io/v1" deprecatedAPIs = none :=
  C3_replacement_is_not_deprecated "networkPolicy" "default" "np" (by decide)

/-- C4: for every kind name that is not a key of the registry built in main
and every declared version, the lookup of the absent key gives the empty rule
(the zero value), getNewestAPIVersion returns the empty string and no finding
is produced. -/
theorem C4_untracked_kind_yields_nothing (K ns name v : String)
    (hK : K ∉ deprecatedAPIs.keys) :
    deprecatedAPIs.index K = apiChanges.zero ∧
    getNewestAPIVersion K v deprecatedAPIs = "" ∧
    evaluate K ns name v deprecatedAPIs = none := by
  have hzero := index_of_not_key deprecatedAPIs K hK
  have hnone : getNewestAPIVersion K v deprecatedAPIs = "" := by
    rw [getNewestAPIVersion_eq, hzero]
    simp [apiChanges.zero]
  exact ⟨hzero, hnone, (evaluate_eq_none_iff _ _ _ _ _).2 hnone⟩

/-- C4, at the scenario of the specification: kind unknownKind declared with
apps/v1beta1, a version that is deprecated for deployment, yields none. -/
theorem C4_witness_unknownKind :
    "apps/v1beta1" ∈ (deprecatedAPIs.index "deployment").Deprecated ∧
    (deprecatedAPIs.index "unknownKind" = apiChanges.zero ∧
      getNewestAPIVersion "unknownKind" "apps/v1beta1" deprecatedAPIs = "" ∧
      evaluate "unknownKind" "default" "x" "apps/v1beta1" deprecatedAPIs = none) :=
  ⟨by decide,
    C4_untracked_kind_yields_nothing "unknownKind" "default" "x" "apps/v1beta1" (by decide)⟩

/-- C5: for every kind name, tracked or not, the empty declared version yields
no finding against the registry built in main: getNewestAPIVersion returns
the empty string. -/
theorem C5_empty_version_yields_nothing (K ns name : String) :
    getNewestAPIVersion K "" deprecatedAPIs = "" ∧
    evaluate K ns name "" deprecatedAPIs = none := by
  have hnone : getNewestAPIVersion K "" deprecatedAPIs = "" := by
    rw [getNewestAPIVersion_eq]
    simp [empty_not_deprecated K]
  exact ⟨hnone, (evaluate_eq_none_iff _ _ _ _ _).2 hnone⟩

/-- C10: for an arbitrary registry map deps, every name and every apiVersion,
getNewestAPIVersion returns the New of deps at name when name is a key of deps
and apiVersion occurs in its Deprecated list, and the empty string otherwise.
Hence a non-empty return value implies membership; under membership the return
value is non-empty exactly when that New is non-empty, which is the case for
each of the six entries of the registry built in main. -/
theorem C10_getNewestAPIVersion_characterisation (deps : Registry)
    (name apiVersion : String) :
    getNewestAPIVersion name apiVersion deps
        = (if name ∈ deps.keys ∧ apiVersion ∈ (deps.index name).Deprecated
            then (deps.index name).New else "") ∧
    (getNewestAPIVersion name apiVersion deps ≠ "" →
        name ∈ deps.keys ∧ apiVersion ∈ (deps.index name).Deprecated) ∧
    (name ∈ deps.keys ∧ apiVersion ∈ (deps.index name).Deprecated →
        (getNewestAPIVersion name apiVersion deps ≠ "" ↔ (deps.index name).New ≠ "")) ∧
    (∀ K, K ∈ deprecatedAPIs.keys → (deprecatedAPIs.index K).New ≠ "") ∧
    deprecatedAPIs.keys.length = 6 := by
  have hkey : apiVersion ∈ (deps.index name).Deprecated → name ∈ deps.keys := by
    intro hv
    by_contra hK
    rw [index_of_not_key _ _ hK] at hv
    simp [apiChanges.zero] at hv
  refine ⟨?_, ?_, ?_, ?_, by decide⟩
  · rw [getNewestAPIVersion_eq]
    by_cases hv : apiVersion ∈ (deps.index name).Deprecated
    · simp [hv, hkey hv]
    · simp [hv]
  · intro h
    rw [getNewestAPIVersion_eq] at h
    by_cases hv : apiVersion ∈ (deps.index name).Deprecated
    · exact ⟨hkey hv, hv⟩
    · simp [hv] at h
  · rintro ⟨_, hv⟩
    rw [getNewestAPIVersion_eq]
    simp [hv]
  · intro K hK
    rcases mem_keys_cases K hK with h | h | h | h | h | h <;> subst h <;> decide

/-- C10, applied to a one-entry registry whose New is empty: membership holds
and the return value is empty, and to the registry built in main, where the
return value under membership is not. -/
theorem C10_witness :
    getNewestAPIVersion "job" "batch/v1beta1" [("job", ⟨["batch/v1beta1"], ""⟩)] = "" ∧
    (getNewestAPIVersion "replicaSet" "apps/v1beta2" deprecatedAPIs ≠ "" ↔
      (deprecatedAPIs.index "replicaSet").New ≠ "") ∧
    ("replicaSet" ∈ deprecatedAPIs.keys ∧
      "apps/v1beta2" ∈ (deprecatedAPIs.index "replicaSet").Deprecated) :=
  ⟨by decide,
    (C10_getNewestAPIVersion_characterisation deprecatedAPIs "replicaSet" "apps/v1beta2").2.2.1
      (by decide),
    (C10_getNewestAPIVersion_characterisation deprecatedAPIs "replicaSet" "apps/v1beta2").2.1
      (by decide)⟩

/-! ## Properties of the passes of `main` -/

/-- C6, the code at the failing input: a NetworkPolicy object whose applied
configuration declares extensions/v1beta1, a member of the Deprecated list of
the registry key networkPolicy, is not reported, because the first pass looks
up the key networkpolicy, which the registry does not have; no NetworkPolicy
object is ever reported. The same configuration on a Deployment object is
reported with NewAPI apps/v1. -/
theorem C6_networkPolicy_object_is_not_reported :
    (sampleUnmarshal extensionsConfig).1.APIVersion
        ∈ (deprecatedAPIs.index "networkPolicy").Deprecated ∧
    (sampleUnmarshal extensionsConfig).2 = none ∧
    "networkpolicy" ∉ deprecatedAPIs.keys ∧
    (main sampleUnmarshal ⟨[appliedObject "default" "np" extensionsConfig], none⟩
        ListOutcome.empty ListOutcome.empty ListOutcome.empty ListOutcome.empty
        ListOutcome.empty).results = [] ∧
    (main sampleUnmarshal ListOutcome.empty ListOutcome.empty
        ⟨[appliedObject "default" "web" extensionsConfig], none⟩
        ListOutcome.empty ListOutcome.empty ListOutcome.empty).results
      = [⟨"default", "web", "extensions/v1beta1", "apps/v1"⟩] ∧
    (∀ (unmarshal : Unmarshal) (items : List Object) (st : State),
      (pass unmarshal deprecatedAPIs "networkpolicy" items st).results = st.results) := by
  refine ⟨by decide, by decide, by decide, by decide, by decide, ?_⟩
  intro unmarshal items st
  rw [pass_results]
  have hnone : ∀ a, contribution unmarshal deprecatedAPIs "networkpolicy" a = none := by
    intro a
    unfold contribution
    have hev : ∀ ns name v,
        evaluate "networkpolicy" ns name v deprecatedAPIs = none := fun ns name v =>
      (evaluate_eq_none_iff _ _ _ _ _).2
        (by rw [getNewestAPIVersion_eq, index_of_not_key _ _ (by decide)]; simp [apiChanges.zero])
    simp [hev]
  simp [hnone]

/-- C7, refuted as stated: a Deployment object whose annotation is not empty
and fails to decode, the decoder having left apps/v1beta1 in the apiVersion
field, gets a record appended to results. -/
theorem C7_counterexample_result_after_decode_error :
    (appliedObject "default" "web" duplicateKeyConfig).Annotations.index
        LastAppliedConfiguration ≠ "" ∧
    (sampleUnmarshal duplicateKeyConfig).2 ≠ none ∧
    (main sampleUnmarshal ListOutcome.empty ListOutcome.empty
        ⟨[appliedObject "default" "web" duplicateKeyConfig], none⟩
        ListOutcome.empty ListOutcome.empty ListOutcome.empty).results
      = [⟨"default", "web", "apps/v1beta1", "apps/v1"⟩] := by
  refine ⟨by decide, by decide, by decide⟩

/-- C7, amended: for an object whose annotation is not empty and fails to
decode, the error is logged and the pass goes on with the remaining objects;
the object is evaluated with the value v that the decoder left in the
apiVersion field. When getNewestAPIVersion returns a non-empty string for v,
the record with the namespace and name of the object, v as DeprecatedAPI and
that string as NewAPI is appended to results: this is the case when v is in
the Deprecated list of the key of the pass and the New of that key is not
empty, the appended NewAPI being that New. When getNewestAPIVersion returns
the empty string, results is unchanged: this is the case when v is not in that
Deprecated list, which for the registry built in main includes the empty
value. -/
theorem C7_decode_error_logged_then_evaluated (unmarshal : Unmarshal) (deps : Registry)
    (key : String) (st : State) (a : Object) (rest : List Object) (e : String)
    (hann : a.Annotations.index LastAppliedConfiguration ≠ "")
    (herr : (unmarshal (a.Annotations.index LastAppliedConfiguration)).2 = some e) :
    pass unmarshal deps key (a :: rest) st
        = pass unmarshal deps key rest (passBody unmarshal deps key st a) ∧
    (passBody unmarshal deps key st a).log = st.log ++ [e] ∧
    (passBody unmarshal deps key st a).results
        = st.results ++ (evaluate key a.Namespace a.Name
            (unmarshal (a.Annotations.index LastAppliedConfiguration)).1.APIVersion
            deps).toList ∧
    (getNewestAPIVersion key
          (unmarshal (a.Annotations.index LastAppliedConfiguration)).1.APIVersion deps ≠ "" →
        (passBody unmarshal deps key st a).results
          = st.results ++ [⟨a.Namespace, a.Name,
              (unmarshal (a.Annotations.index LastAppliedConfiguration)).1.APIVersion,
              getNewestAPIVersion key
                (unmarshal (a.Annotations.index LastAppliedConfiguration)).1.APIVersion
                deps⟩]) ∧
    (getNewestAPIVersion key
          (unmarshal (a.Annotations.index LastAppliedConfiguration)).1.APIVersion deps = "" →
        (passBody unmarshal deps key st a).results = st.results) ∧
    ((unmarshal (a.Annotations.index LastAppliedConfiguration)).1.APIVersion
          ∈ (deps.index key).Deprecated → (deps.index key).New ≠ "" →
        (passBody unmarshal deps key st a).results
          = st.results ++ [⟨a.Namespace, a.Name,
              (unmarshal (a.Annotations.index LastAppliedConfiguration)).1.APIVersion,
              (deps.index key).New⟩]) ∧
    ((unmarshal (a.Annotations.index LastAppliedConfiguration)).1.APIVersion
          ∉ (deps.index key).Deprecated →
        (passBody unmarshal deps key st a).results = st.results) ∧
    ((unmarshal (a.Annotations.index LastAppliedConfiguration)).1.APIVersion = "" →
        (passBody unmarshal deprecatedAPIs key st a).results = st.results) := by
  have hres : ∀ ds : Registry, (passBody unmarshal ds key st a).results
      = st.results ++ (evaluate key a.Namespace a.Name
          (unmarshal (a.Annotations.index LastAppliedConfiguration)).1.APIVersion
          ds).toList := by
    intro ds
    rw [passBody_results]
    unfold contribution
    simp [hann]
  have hsome : ∀ ds : Registry,
      getNewestAPIVersion key
          (unmarshal (a.Annotations.index LastAppliedConfiguration)).1.APIVersion ds ≠ "" →
        (passBody unmarshal ds key st a).results
          = st.results ++ [⟨a.Namespace, a.Name,
              (unmarshal (a.Annotations.index LastAppliedConfiguration)).1.APIVersion,
              getNewestAPIVersion key
                (unmarshal (a.Annotations.index LastAppliedConfiguration)).1.APIVersion
                ds⟩] := by
    intro ds hne
    rw [hres ds]
    unfold evaluate
    simp [hne]
  have hnone : ∀ ds : Registry,
      getNewestAPIVersion key
          (unmarshal (a.Annotations.index LastAppliedConfiguration)).1.APIVersion ds = "" →
        (passBody unmarshal ds key st a).results = st.results := by
    intro ds heq
    rw [hres ds, (evaluate_eq_none_iff _ _ _ _ _).2 heq]
    simp
  refine ⟨rfl, ?_, hres deps, hsome deps, hnone deps, ?_, ?_, ?_⟩
  · unfold passBody
    simp only [ne_eq, hann, not_false_eq_true, if_true, herr]
    cases evaluate key a.Namespace a.Name
      (unmarshal (a.Annotations.index LastAppliedConfiguration)).1.APIVersion deps <;> rfl
  · intro hv hnew
    have hval : getNewestAPIVersion key
        (unmarshal (a.Annotations.index LastAppliedConfiguration)).1.APIVersion deps
          = (deps.index key).New := by
      rw [getNewestAPIVersion_eq]
      simp [hv]
    have h := hsome deps (by rw [hval]; exact hnew)
    rw [hval] at h
    exact h
  · intro hv
    exact hnone deps (by rw [getNewestAPIVersion_eq]; simp [hv])
  · intro hv
    exact hnone deprecatedAPIs
      (by rw [getNewestAPIVersion_eq, hv]; simp [empty_not_deprecated key])

/-- C7, amended, applied to the Deployment object with the duplicate-member
document: the annotation is not empty, the decoder returns an error and leaves
apps/v1beta1, for which getNewestAPIVersion returns apps/v1; the error is
logged and the record with DeprecatedAPI apps/v1beta1 and NewAPI apps/v1 is
appended. -/
theorem C7_witness_duplicate_member :
    (appliedObject "default" "web" duplicateKeyConfig).Annotations.index
        LastAppliedConfiguration ≠ "" ∧
    (sampleUnmarshal duplicateKeyConfig).2 = some duplicateKeyError ∧
    getNewestAPIVersion "deployment" "apps/v1beta1" deprecatedAPIs ≠ "" ∧
    (passBody sampleUnmarshal deprecatedAPIs "deployment" ⟨[], []⟩
        (appliedObject "default" "web" duplicateKeyConfig)).log
      = [duplicateKeyError] ∧
    (passBody sampleUnmarshal deprecatedAPIs "deployment" ⟨[], []⟩
        (appliedObject "default" "web" duplicateKeyConfig)).results
      = [⟨"default", "web", "apps/v1beta1", "apps/v1"⟩] :=
  ⟨by decide, by decide, by decide,
    (C7_decode_error_logged_then_evaluated sampleUnmarshal deprecatedAPIs "deployment" ⟨[], []⟩
      (appliedObject "default" "web" duplicateKeyConfig) [] duplicateKeyError
      (by decide) (by decide)).2.1,
    (C7_decode_error_logged_then_evaluated sampleUnmarshal deprecatedAPIs "deployment" ⟨[], []⟩
      (appliedObject "default" "web" duplicateKeyConfig) [] duplicateKeyError
      (by decide) (by decide)).2.2.2.1 (by decide)⟩

/-- C8, refuted as stated: a run in which listing the NetworkPolicy kind fails
writes nothing to the log and has the same results as the run in which that
call reports no error, so that the failure is observable in neither. -/
theorem C8_counterexample_list_error_not_surfaced :
    main sampleUnmarshal ⟨[], some "networkpolicies.networking.k8s.io is forbidden"⟩
        ListOutcome.empty ⟨[appliedObject "default" "web" extensionsConfig], none⟩
        ListOutcome.empty ListOutcome.empty ListOutcome.empty
      = ⟨[⟨"default", "web", "extensions/v1beta1", "apps/v1"⟩], []⟩ ∧
    main sampleUnmarshal ⟨[], none⟩
        ListOutcome.empty ⟨[appliedObject "default" "web" extensionsConfig], none⟩
        ListOutcome.empty ListOutcome.empty ListOutcome.empty
      = ⟨[⟨"default", "web", "extensions/v1beta1", "apps/v1"⟩], []⟩ := by
  refine ⟨by decide, by decide⟩

/-- C8, amended: whatever errors the six List calls return, main goes through
all six passes over the items that the calls returned, and the error values
are discarded: results and log are those of the run in which every call
returned the same items and a nil error. -/
theorem C8_list_errors_are_discarded (unmarshal : Unmarshal)
    (nwpl psp dp ds ss rs : ListOutcome) :
    main unmarshal nwpl psp dp ds ss rs
        = main unmarshal ⟨nwpl.Items, none⟩ ⟨psp.Items, none⟩ ⟨dp.Items, none⟩
            ⟨ds.Items, none⟩ ⟨ss.Items, none⟩ ⟨rs.Items, none⟩ ∧
    (main unmarshal nwpl psp dp ds ss rs).results
        = (enumeration nwpl psp dp ds ss rs).filterMap
            (fun p => contribution unmarshal deprecatedAPIs p.1 p.2) :=
  ⟨rfl, main_results unmarshal nwpl psp dp ds ss rs⟩

/-- C9: results is obtained from the objects in enumeration order (the six
passes in the order of main, list order within a pass) by keeping at most one
record per object; an object whose last-applied-configuration annotation is
absent or empty contributes none, and the length of results is at most the
number of objects with a non-empty annotation. -/
theorem C9_at_most_one_record_per_object (unmarshal : Unmarshal)
    (nwpl psp dp ds ss rs : ListOutcome) :
    (main unmarshal nwpl psp dp ds ss rs).results
        = (enumeration nwpl psp dp ds ss rs).filterMap
            (fun p => contribution unmarshal deprecatedAPIs p.1 p.2) ∧
    (enumeration nwpl psp dp ds ss rs).map Prod.snd
        = nwpl.Items ++ psp.Items ++ dp.Items ++ ds.Items ++ ss.Items ++ rs.Items ∧
    (∀ (key : String) (a : Object), a.Annotations.index LastAppliedConfiguration = "" →
        contribution unmarshal deprecatedAPIs key a = none) ∧
    (main unmarshal nwpl psp dp ds ss rs).results.length
        ≤ (nwpl.Items ++ psp.Items ++ dp.Items ++ ds.Items ++ ss.Items ++ rs.Items).countP
            hasAppliedConfig := by
  have henum : (enumeration nwpl psp dp ds ss rs).map Prod.snd
      = nwpl.Items ++ psp.Items ++ dp.Items ++ ds.Items ++ ss.Items ++ rs.Items := by
    simp [enumeration, Function.comp_def]
  refine ⟨main_results unmarshal nwpl psp dp ds ss rs, henum, ?_, ?_⟩
  · intro key a ha
    unfold contribution
    simp [ha]
  · rw [main_results, ← henum, List.countP_map]
    exact filterMap_length_le_countP _ _
      (fun p hp => contribution_none_of_not_hasAppliedConfig unmarshal deprecatedAPIs p.1 p.2 hp)
      _

end DeprecationPlugin
